import Mathlib

/-!
Verification development for the key-history proof verifier of the AKD
(auditable key directory) repository, file `src/akd_core/src/verify/history.rs`.

The embedding is shallow:

* machine integers (`u64`, `usize`) become `Nat`; every place where the
  source's fixed-width arithmetic could overflow or underflow is tracked by an
  explicit predicate (`v1_marker_arith_ok`) rather than silently idealised;
* byte strings become `List Nat`; opaque proof blobs (VRF proofs, membership
  proofs, non-membership proofs) become `Nat` identifiers, since the verifier
  only forwards them to the cryptographic primitives;
* the external cryptographic primitives (`verify_existence`,
  `verify_existence_with_val`, `verify_existence_with_commitment`,
  `verify_nonexistence` of `verify/base.rs`, outside the core under study) are
  modelled as an oracle `CryptoCall → Except VerificationError Unit` carried by
  the `Configuration`; every verifier function additionally returns the list of
  oracle calls it attempted, in order, so that theorems can speak about which
  cryptographic sub-proofs are checked, with which arguments, and in which
  order;
* fallible code returns `Except VerificationError _`; Rust's `?` becomes an
  explicit match on the intermediate result.

Error messages are kept as constant strings (the source interpolates values
with `format!`; the claims only distinguish the error constructor).
-/

namespace AkdVerify

/-- Byte strings (labels, values, nonces) are lists of byte values. -/
abbrev Bytes := List Nat

/-- Freshness tag of a committed (label, version) leaf, from the spec's data
model and `crate::VersionFreshness`: `Fresh` when the version is introduced,
`Stale` when it has been superseded. -/
inductive VersionFreshness where
  | Fresh
  | Stale
deriving DecidableEq, Repr

/-- Modelled from the spec: the error surface of the verifier (spec section
6.3); the enum itself (`crate::verify::VerificationError`) is declared outside
the files under study. `HistoryProof` carries a message; the cryptographic
variants are surfaced by the base verifiers. -/
inductive VerificationError where
  | HistoryProof (msg : String)
  | VrfInvalid
  | MembershipInvalid
  | NonMembershipInvalid
  | CommitmentMismatch
deriving DecidableEq, Repr

/-- Modelled from the spec: one `UpdateProof` per claimed version (spec
section 3); the struct itself (`crate::UpdateProof`) is declared outside the
files under study. Opaque proof blobs are `Nat` identifiers. -/
structure UpdateProof where
  epoch : Nat
  version : Nat
  value : Bytes
  existence_vrf_proof : Nat
  existence_proof : Nat
  previous_version_vrf_proof : Option Nat
  previous_version_proof : Option Nat
  commitment_nonce : Bytes
deriving DecidableEq, Repr

/-- Modelled from the spec: the per-update verification report
{epoch, version, value} (spec section 3, `crate::VerifyResult`). -/
structure VerifyResult where
  epoch : Nat
  version : Nat
  value : Bytes
deriving DecidableEq, Repr

/-- Modelled from the spec: the legacy v1 `HistoryProof` bundle (spec section
3, `crate::HistoryProof`). -/
structure HistoryProof where
  update_proofs : List UpdateProof
  until_marker_vrf_proofs : List Nat
  non_existence_until_marker_proofs : List Nat
  future_marker_vrf_proofs : List Nat
  non_existence_of_future_marker_proofs : List Nat
deriving DecidableEq, Repr

/-- Modelled from the spec: the v2 `HistoryProofV2` bundle (spec section 3,
`crate::HistoryProofV2`). -/
structure HistoryProofV2 where
  update_proofs : List UpdateProof
  past_marker_vrf_proofs : List Nat
  existence_of_past_marker_proofs : List Nat
  future_marker_vrf_proofs : List Nat
  non_existence_of_future_marker_proofs : List Nat
deriving DecidableEq, Repr

/-- `HistoryParams` of history.rs lines 29-34. -/
inductive HistoryParams where
  | Complete
  | MostRecent (n : Nat)
deriving DecidableEq, Repr

/-- `HistoryVerificationParams` of history.rs lines 45-52. -/
inductive HistoryVerificationParams where
  | Default (historyParams : HistoryParams)
  | AllowMissingValues (historyParams : HistoryParams)
deriving DecidableEq, Repr

/-- Modelled from the spec: the sentinel `crate::TOMBSTONE` (declared outside
the files under study) is a distinguished byte pattern denoting a redacted
value; the verifier only ever compares a value against it for equality, so its
exact bytes are immaterial.  We fix the empty byte string. -/
def TOMBSTONE : Bytes := []

/-- One invocation of an external cryptographic base verifier
(`verify/base.rs`), with all the arguments the history layer passes to it.
Argument order follows the source call sites. -/
inductive CryptoCall where
  | existence (vrf_public_key : Bytes) (root_hash : Nat) (akd_label : Bytes)
      (freshness : VersionFreshness) (version : Nat)
      (vrf_proof : Nat) (membership_proof : Nat)
  | existenceWithVal (vrf_public_key : Bytes) (root_hash : Nat) (akd_label : Bytes)
      (value : Bytes) (epoch : Nat) (commitment_nonce : Bytes)
      (freshness : VersionFreshness) (version : Nat)
      (vrf_proof : Nat) (membership_proof : Nat)
  | existenceWithCommitment (vrf_public_key : Bytes) (root_hash : Nat) (akd_label : Bytes)
      (commitment : Nat) (epoch : Nat)
      (freshness : VersionFreshness) (version : Nat)
      (vrf_proof : Nat) (membership_proof : Nat)
  | nonexistence (vrf_public_key : Bytes) (root_hash : Nat) (akd_label : Bytes)
      (freshness : VersionFreshness) (version : Nat)
      (vrf_proof : Nat) (nonmembership_proof : Nat)
deriving DecidableEq, Repr

/-- The compile-time configuration `TC: Configuration` together with the
external base verifiers it parameterises: `stale_azks_value` is the stale
commitment sentinel (`TC::stale_azks_value()`, modelled as an opaque `Nat`),
and `oracle` answers each cryptographic sub-proof check. -/
structure Configuration where
  stale_azks_value : Nat
  oracle : CryptoCall → Except VerificationError Unit

/-- The first (current-version) cryptographic check selected by
`verify_single_update_proof`, history.rs lines 432-464: the match on
`(params, &proof.value)` with the guard `bytes.0 == crate::TOMBSTONE`. -/
def current_version_call (vrf_public_key : Bytes) (root_hash : Nat)
    (akd_label : Bytes) (proof : UpdateProof)
    (params : HistoryVerificationParams) : CryptoCall :=
  match params, proof.value with
  | .AllowMissingValues _, bytes =>
      if bytes = TOMBSTONE then
        -- A tombstone was encountered: take the hash of the value at face
        -- value (verify_existence only).
        .existence vrf_public_key root_hash akd_label .Fresh proof.version
          proof.existence_vrf_proof proof.existence_proof
      else
        .existenceWithVal vrf_public_key root_hash akd_label bytes proof.epoch
          proof.commitment_nonce .Fresh proof.version
          proof.existence_vrf_proof proof.existence_proof
  | .Default _, akd_value =>
      .existenceWithVal vrf_public_key root_hash akd_label akd_value proof.epoch
        proof.commitment_nonce .Fresh proof.version
        proof.existence_vrf_proof proof.existence_proof

/-- `verify_single_update_proof`, history.rs lines 424-501.  Returns the
result together with the list of cryptographic calls attempted, in order. -/
def verify_single_update_proof (cfg : Configuration) (root_hash : Nat)
    (vrf_public_key : Bytes) (proof : UpdateProof) (akd_label : Bytes)
    (params : HistoryVerificationParams) :
    Except VerificationError VerifyResult × List CryptoCall :=
  let firstCall := current_version_call vrf_public_key root_hash akd_label proof params
  match cfg.oracle firstCall with
  | .error e => (.error e, [firstCall])
  | .ok () =>
    let verify_result : VerifyResult :=
      { epoch := proof.epoch, version := proof.version, value := proof.value }
    if proof.version ≤ 1 then
      -- There is no previous version, so we can just return here (line 472).
      (.ok verify_result, [firstCall])
    else
      match proof.previous_version_proof with
      | none =>
          (.error (.HistoryProof "Missing membership proof for previous version"),
            [firstCall])
      | some previous_version_proof =>
        match proof.previous_version_vrf_proof with
        | none =>
            (.error (.HistoryProof "Missing VRF proof for previous version"),
              [firstCall])
        | some previous_version_vrf_proof =>
          let staleCall : CryptoCall :=
            .existenceWithCommitment vrf_public_key root_hash akd_label
              cfg.stale_azks_value proof.epoch .Stale (proof.version - 1)
              previous_version_vrf_proof previous_version_proof
          match cfg.oracle staleCall with
          | .error e => (.error e, [firstCall, staleCall])
          | .ok () => (.ok verify_result, [firstCall, staleCall])

/-- The contiguity check shared by `key_history_verify` (history.rs lines
91-105) and `verify_with_history_params` (lines 235-249): for every index
`count > 0`, `update_proofs[count].version + 1` must equal
`update_proofs[count - 1].version`, otherwise a `HistoryProof` error.  The
indexed loop over adjacent pairs is rendered as structural recursion on
adjacent pairs. -/
def check_contiguous : List UpdateProof → Except VerificationError Unit
  | [] => .ok ()
  | [_] => .ok ()
  | u0 :: u1 :: rest =>
      if u1.version + 1 ≠ u0.version then
        .error (.HistoryProof
          "Update proofs should be ordered consecutively and in decreasing order")
      else check_contiguous (u1 :: rest)

/-- The per-update loop of `key_history_verify` (v1), history.rs lines
108-136: tracks the running maximum version (`last_version`), enforces that
each epoch is not greater than the previously processed one, and calls
`verify_single_update_proof`, accumulating results in input order.  Returns
the final `last_version` together with the results, plus the trace of
cryptographic calls. -/
def v1_update_loop (cfg : Configuration) (root_hash : Nat)
    (vrf_public_key : Bytes) (akd_label : Bytes)
    (params : HistoryVerificationParams) :
    Nat → Option Nat → List UpdateProof →
    Except VerificationError (Nat × List VerifyResult) × List CryptoCall
  | last_version, _, [] => (.ok (last_version, []), [])
  | last_version, maybe_previous_update_epoch, update_proof :: rest =>
    let lv := if update_proof.version > last_version then update_proof.version
              else last_version
    let epoch_bad : Bool :=
      match maybe_previous_update_epoch with
      | some previous_update_epoch => decide (update_proof.epoch > previous_update_epoch)
      | none => false
    if epoch_bad then
      (.error (.HistoryProof
        "Version numbers for updates are decreasing, but their corresponding epochs are not decreasing"),
        [])
    else
      match verify_single_update_proof cfg root_hash vrf_public_key update_proof
          akd_label params with
      | (.error e, tr) => (.error e, tr)
      | (.ok result, tr) =>
        match v1_update_loop cfg root_hash vrf_public_key akd_label params lv
            (some update_proof.epoch) rest with
        | (.error e, tr2) => (.error e, tr ++ tr2)
        | (.ok (lvf, results), tr2) => (.ok (lvf, result :: results), tr ++ tr2)

/-- The per-update loop of `key_history_verify_v2`, history.rs lines 366-387:
identical to the v1 loop except that it does not track a running maximum
version. -/
def v2_update_loop (cfg : Configuration) (root_hash : Nat)
    (vrf_public_key : Bytes) (akd_label : Bytes)
    (params : HistoryVerificationParams) :
    Option Nat → List UpdateProof →
    Except VerificationError (List VerifyResult) × List CryptoCall
  | _, [] => (.ok [], [])
  | maybe_previous_update_epoch, update_proof :: rest =>
    let epoch_bad : Bool :=
      match maybe_previous_update_epoch with
      | some previous_update_epoch => decide (update_proof.epoch > previous_update_epoch)
      | none => false
    if epoch_bad then
      (.error (.HistoryProof
        "Version numbers for updates are decreasing, but their corresponding epochs are not decreasing"),
        [])
    else
      match verify_single_update_proof cfg root_hash vrf_public_key update_proof
          akd_label params with
      | (.error e, tr) => (.error e, tr)
      | (.ok result, tr) =>
        match v2_update_loop cfg root_hash vrf_public_key akd_label params
            (some update_proof.epoch) rest with
        | (.error e, tr2) => (.error e, tr ++ tr2)
        | (.ok results, tr2) => (.ok (result :: results), tr ++ tr2)

/-- Modelled from the spec: `crate::utils::get_marker_version_log2` is not
among the files under study; spec section 4.1 defines it as
`marker_exp(v) = floor(log2(v))` for `v ≥ 1`, over 64-bit versions (the
source computes `64 - leading_zeros(v) - 1` on a `u64`).  For `1 ≤ v < 2^64`
this equals the number of exponents `k < 64` with `2^k ≤ v`, minus one; the
definition below is stated that way so that it is kernel-computable. -/
def get_marker_version_log2 (version : Nat) : Nat :=
  ((List.range 64).countP fun k => decide (2 ^ k ≤ version)) - 1

/-- A loop of `verify_nonexistence` calls over (version, vrf proof,
non-membership proof) triples, with any primitive failure wrapped as a
`HistoryProof` error carrying `errMsg` (as the `map_err` closures at
history.rs lines 170-176, 208-213 and 412-417 do).  Freshness is always
`Fresh` at these call sites. -/
def nonexistence_marker_loop (cfg : Configuration) (vrf_public_key : Bytes)
    (root_hash : Nat) (akd_label : Bytes) (errMsg : String) :
    List (Nat × Nat × Nat) → Except VerificationError Unit × List CryptoCall
  | [] => (.ok (), [])
  | (version, vrf_proof, nonmembership_proof) :: rest =>
    let c : CryptoCall := .nonexistence vrf_public_key root_hash akd_label
      .Fresh version vrf_proof nonmembership_proof
    match cfg.oracle c with
    | .error _ => (.error (.HistoryProof errMsg), [c])
    | .ok () =>
      match nonexistence_marker_loop cfg vrf_public_key root_hash akd_label errMsg rest with
      | (r, tr) => (r, c :: tr)

/-- A loop of `verify_existence` calls over (version, vrf proof, membership
proof) triples, propagating any primitive failure unchanged (as the past
marker loop of `key_history_verify_v2`, history.rs lines 389-399). -/
def existence_marker_loop (cfg : Configuration) (vrf_public_key : Bytes)
    (root_hash : Nat) (akd_label : Bytes) :
    List (Nat × Nat × Nat) → Except VerificationError Unit × List CryptoCall
  | [] => (.ok (), [])
  | (version, vrf_proof, membership_proof) :: rest =>
    let c : CryptoCall := .existence vrf_public_key root_hash akd_label
      .Fresh version vrf_proof membership_proof
    match cfg.oracle c with
    | .error e => (.error e, [c])
    | .ok () =>
      match existence_marker_loop cfg vrf_public_key root_hash akd_label rest with
      | (r, tr) => (r, c :: tr)

/-- The marker section of `key_history_verify` (v1), history.rs lines
138-214: count checks for the until-marker proofs, the until-marker
non-existence loop over versions `last_version + 1 .. 2 ^ next_marker`
(ascending), count checks for the future-marker proofs, and the future-marker
non-existence loop over versions `2 ^ pow` for
`pow ∈ next_marker .. final_marker + 1` (ascending).  The source indexes the
proof vectors by the loop counter; after the preceding length checks this is
the same as zipping. -/
def v1_marker_checks (cfg : Configuration) (vrf_public_key : Bytes)
    (root_hash : Nat) (akd_label : Bytes) (current_epoch last_version : Nat)
    (proof : HistoryProof) :
    Except VerificationError Unit × List CryptoCall :=
  let next_marker := get_marker_version_log2 last_version + 1
  let final_marker := get_marker_version_log2 current_epoch
  let expected_num_until_marker_proofs := 2 ^ next_marker - last_version - 1
  if expected_num_until_marker_proofs ≠ proof.until_marker_vrf_proofs.length then
    (.error (.HistoryProof "Expected until-marker proofs count mismatch"), [])
  else if proof.until_marker_vrf_proofs.length ≠
      proof.non_existence_until_marker_proofs.length then
    (.error (.HistoryProof "Expected equal number of until-marker proofs"), [])
  else
    match nonexistence_marker_loop cfg vrf_public_key root_hash akd_label
        "Non-existence of next few proof of label does not verify"
        ((List.range' (last_version + 1) expected_num_until_marker_proofs).zip
          (proof.until_marker_vrf_proofs.zip
            proof.non_existence_until_marker_proofs)) with
    | (.error e, tr) => (.error e, tr)
    | (.ok (), tr) =>
      let expected_num_future_marker_proofs := final_marker + 1 - next_marker
      if expected_num_future_marker_proofs ≠ proof.future_marker_vrf_proofs.length then
        (.error (.HistoryProof "Expected future-marker proofs count mismatch"), tr)
      else if proof.future_marker_vrf_proofs.length ≠
          proof.non_existence_of_future_marker_proofs.length then
        (.error (.HistoryProof "Expected equal number of future-marker proofs"), tr)
      else
        match nonexistence_marker_loop cfg vrf_public_key root_hash akd_label
            "Non-existence of future marker proof of label does not verify"
            (((List.range' next_marker expected_num_future_marker_proofs).map
                fun pow => 2 ^ pow).zip
              (proof.future_marker_vrf_proofs.zip
                proof.non_existence_of_future_marker_proofs)) with
        | (.error e, tr2) => (.error e, tr ++ tr2)
        | (.ok (), tr2) => (.ok (), tr ++ tr2)

/-- `key_history_verify` (v1, deprecated), history.rs lines 70-217. -/
def key_history_verify (cfg : Configuration) (vrf_public_key : Bytes)
    (root_hash : Nat) (current_epoch : Nat) (akd_label : Bytes)
    (proof : HistoryProof) (params : HistoryVerificationParams) :
    Except VerificationError (List VerifyResult) × List CryptoCall :=
  let num_proofs := proof.update_proofs.length
  -- Make sure the update proofs are non-empty
  if num_proofs = 0 then
    (.error (.HistoryProof "No update proofs included in the proof"), [])
  else
    -- Check that the sent proofs are for a contiguous sequence of decreasing versions
    match check_contiguous proof.update_proofs with
    | .error e => (.error e, [])
    | .ok () =>
      -- Verify all individual update proofs
      match v1_update_loop cfg root_hash vrf_public_key akd_label params 0 none
          proof.update_proofs with
      | (.error e, tr) => (.error e, tr)
      | (.ok (last_version, results), tr) =>
        match v1_marker_checks cfg vrf_public_key root_hash akd_label
            current_epoch last_version proof with
        | (.error e, tr2) => (.error e, tr ++ tr2)
        | (.ok (), tr2) => (.ok results, tr ++ tr2)

/-- The start version computed by `verify_with_history_params`, history.rs
lines 251-260: initialised to `update_proofs[0].version` and folded with
minimum over all update proofs ((`0` for an empty list, which the
non-emptiness check rules out before this value is used). -/
def computed_start_version (update_proofs : List UpdateProof) : Nat :=
  match update_proofs with
  | [] => 0
  | u :: _ =>
    update_proofs.foldl
      (fun s p => if p.version < s then p.version else s) u.version

/-- The end version computed by `verify_with_history_params`, history.rs
lines 251-260: as `computed_start_version` but folded with maximum. -/
def computed_end_version (update_proofs : List UpdateProof) : Nat :=
  match update_proofs with
  | [] => 0
  | u :: _ =>
    update_proofs.foldl
      (fun s p => if p.version > s then p.version else s) u.version

/-- The `match params` policy block of `verify_with_history_params`,
history.rs lines 274-302: `Complete` requires start version 1; for
`MostRecent(n)`, fewer than `n` proofs require start version 1 and more than
`n` proofs are rejected. -/
def history_params_policy_check (start_version num_proofs : Nat)
    (params : HistoryParams) : Except VerificationError Unit :=
  match params with
  | .Complete =>
      if start_version ≠ 1 then
        .error (.HistoryProof
          "Expected start version to be 1 given that it is a complete history")
      else .ok ()
  | .MostRecent recency =>
      if num_proofs < recency then
        if start_version ≠ 1 then
          .error (.HistoryProof
            "Expected start version to be 1 given that the number of proofs returned was less than the recency parameter")
        else .ok ()
      else if num_proofs > recency then
        .error (.HistoryProof "Expected at most recency update proofs")
      else .ok ()

/-- Modelled from the spec: `crate::utils::get_marker_versions` is not among
the files under study; spec section 4.1 defines
`get_marker_versions(start_v, end_v, current_epoch)` as the pair of lists of
powers of two `p` with `start_v ≤ p ≤ end_v` (past markers) and
`end_v < p ≤ current_epoch` (future markers), each ascending by exponent. -/
def get_marker_versions (start_version end_version current_epoch : Nat) :
    List Nat × List Nat :=
  let past := ((List.range (get_marker_version_log2 end_version + 1)).map
      fun k => 2 ^ k).filter
      fun p => decide (start_version ≤ p ∧ p ≤ end_version)
  let future := ((List.range (get_marker_version_log2 current_epoch + 1)).map
      fun k => 2 ^ k).filter
      fun p => decide (end_version < p ∧ p ≤ current_epoch)
  (past, future)

/-- `verify_with_history_params`, history.rs lines 219-340: structural checks
(non-empty, contiguous descending versions), version-range checks
(`start_version ≠ 0`, `end_version ≤ current_epoch`), the history-params
policy check, and the marker count checks; on success it returns the past and
future marker versions.  (The source also receives the label, used only in
error messages.) -/
def verify_with_history_params (current_epoch : Nat) (proof : HistoryProofV2)
    (params : HistoryParams) :
    Except VerificationError (List Nat × List Nat) :=
  let num_proofs := proof.update_proofs.length
  if num_proofs = 0 then
    .error (.HistoryProof "No update proofs included in the proof")
  else
    match check_contiguous proof.update_proofs with
    | .error e => .error e
    | .ok () =>
      let start_version := computed_start_version proof.update_proofs
      let end_version := computed_end_version proof.update_proofs
      if start_version = 0 then
        .error (.HistoryProof
          "Computed start version for the key history should be non-zero")
      else if end_version > current_epoch then
        .error (.HistoryProof
          "Computed end version for the key history should not exceed current epoch")
      else
        match history_params_policy_check start_version num_proofs params with
        | .error e => .error e
        | .ok () =>
          let (past_marker_versions, future_marker_versions) :=
            get_marker_versions start_version end_version current_epoch
          if past_marker_versions.length ≠ proof.past_marker_vrf_proofs.length then
            .error (.HistoryProof "Expected past marker proofs count mismatch")
          else if proof.past_marker_vrf_proofs.length ≠
              proof.existence_of_past_marker_proofs.length then
            .error (.HistoryProof "Expected equal number of past marker proofs")
          else if future_marker_versions.length ≠
              proof.future_marker_vrf_proofs.length then
            .error (.HistoryProof "Expected future marker proofs count mismatch")
          else if proof.future_marker_vrf_proofs.length ≠
              proof.non_existence_of_future_marker_proofs.length then
            .error (.HistoryProof "Expected equal number of future marker proofs")
          else .ok (past_marker_versions, future_marker_versions)

/-- The decode of `HistoryVerificationParams` into its `HistoryParams`
payload, history.rs lines 356-359. -/
def history_params_of : HistoryVerificationParams → HistoryParams
  | .Default historyParams => historyParams
  | .AllowMissingValues historyParams => historyParams

/-- `key_history_verify_v2`, history.rs lines 346-421.  (The stray diagnostic
print at line 360 is I/O and not modelled.) -/
def key_history_verify_v2 (cfg : Configuration) (vrf_public_key : Bytes)
    (root_hash : Nat) (current_epoch : Nat) (akd_label : Bytes)
    (proof : HistoryProofV2) (verification_params : HistoryVerificationParams) :
    Except VerificationError (List VerifyResult) × List CryptoCall :=
  let params := history_params_of verification_params
  match verify_with_history_params current_epoch proof params with
  | .error e => (.error e, [])
  | .ok (past_marker_versions, future_marker_versions) =>
    match v2_update_loop cfg root_hash vrf_public_key akd_label
        verification_params none proof.update_proofs with
    | (.error e, tr) => (.error e, tr)
    | (.ok results, tr) =>
      match existence_marker_loop cfg vrf_public_key root_hash akd_label
          (past_marker_versions.zip
            (proof.past_marker_vrf_proofs.zip
              proof.existence_of_past_marker_proofs)) with
      | (.error e, tr2) => (.error e, tr ++ tr2)
      | (.ok (), tr2) =>
        match nonexistence_marker_loop cfg vrf_public_key root_hash akd_label
            "Non-existence of future marker proof of label does not verify"
            (future_marker_versions.zip
              (proof.future_marker_vrf_proofs.zip
                proof.non_existence_of_future_marker_proofs)) with
        | (.error e, tr3) => (.error e, tr ++ tr2 ++ tr3)
        | (.ok (), tr3) => (.ok results, tr ++ tr2 ++ tr3)

/-- Well-definedness over `u64` of the marker-count arithmetic of
`key_history_verify` (v1), history.rs lines 139-143 and 180: the shift
`1 << next_marker` does not overflow (shift amount below 64), the subtraction
`(1 << next_marker) - last_version - 1` does not underflow, and the
subtraction `final_marker + 1 - next_marker` does not underflow. -/
def v1_marker_arith_ok (last_version current_epoch : Nat) : Prop :=
  get_marker_version_log2 last_version + 1 < 64 ∧
  last_version + 1 ≤ 2 ^ (get_marker_version_log2 last_version + 1) ∧
  get_marker_version_log2 last_version + 1 ≤ get_marker_version_log2 current_epoch + 1

instance (last_version current_epoch : Nat) :
    Decidable (v1_marker_arith_ok last_version current_epoch) := by
  unfold v1_marker_arith_ok; infer_instance

/-- Whether an error is the `HistoryProof` variant. -/
def isHistoryProofError : VerificationError → Bool
  | .HistoryProof _ => true
  | _ => false

/-- Whether a verifier outcome is an error of the `HistoryProof` variant. -/
def resultIsHistoryProofError {α : Type} : Except VerificationError α → Bool
  | .error e => isHistoryProofError e
  | .ok _ => false

/-! Concrete fixtures used by witnesses and counterexamples. -/

/-- A configuration whose cryptographic oracle accepts every sub-proof. -/
def cfgAll : Configuration := ⟨77, fun _ => .ok ()⟩

/-- A configuration whose oracle rejects every `verify_existence_with_val`
check with `CommitmentMismatch` and accepts everything else: it models a
directory state in which the membership proofs are valid but no supplied
value matches the leaf commitment. -/
def cfgRejectVal : Configuration :=
  ⟨77, fun c => match c with
    | .existenceWithVal _ _ _ _ _ _ _ _ _ _ => .error .CommitmentMismatch
    | _ => .ok ()⟩

/-- A sample update proof with the given epoch and version; previous-version
proofs are present when `pv` is true. -/
def up (epoch version : Nat) (value : Bytes) (pv : Bool) : UpdateProof :=
  { epoch := epoch, version := version, value := value,
    existence_vrf_proof := 10 * version, existence_proof := 10 * version + 1,
    previous_version_vrf_proof := if pv then some (10 * version + 2) else none,
    previous_version_proof := if pv then some (10 * version + 3) else none,
    commitment_nonce := [1] }

/-- Scenario S1 of the spec: a single fresh insertion at epoch 1. -/
def proofS1 : HistoryProofV2 :=
  { update_proofs := [up 1 1 [118] false],
    past_marker_vrf_proofs := [100], existence_of_past_marker_proofs := [101],
    future_marker_vrf_proofs := [], non_existence_of_future_marker_proofs := [] }

/-! Helper lemmas. -/

/-- The trace of `verify_single_update_proof` always starts with the
current-version check. -/
theorem vsup_trace_head (cfg : Configuration) (root_hash : Nat)
    (vrf_public_key : Bytes) (u : UpdateProof) (akd_label : Bytes)
    (params : HistoryVerificationParams) :
    ∃ rest, (verify_single_update_proof cfg root_hash vrf_public_key u akd_label params).2 =
      current_version_call vrf_public_key root_hash akd_label u params :: rest := by
  unfold verify_single_update_proof
  cases h : cfg.oracle (current_version_call vrf_public_key root_hash akd_label u params) with
  | error e => exact ⟨[], by simp [h]⟩
  | ok v =>
    cases v
    by_cases hv : u.version ≤ 1
    · exact ⟨[], by simp [h, hv]⟩
    · cases hpp : u.previous_version_proof with
      | none => exact ⟨[], by simp [h, hv, hpp]⟩
      | some pp =>
        cases hpv : u.previous_version_vrf_proof with
        | none => exact ⟨[], by simp [h, hv, hpp, hpv]⟩
        | some pv =>
          cases h2 : cfg.oracle (.existenceWithCommitment vrf_public_key root_hash
              akd_label cfg.stale_azks_value u.epoch .Stale (u.version - 1) pv pp) with
          | error e =>
            exact ⟨[.existenceWithCommitment vrf_public_key root_hash akd_label
              cfg.stale_azks_value u.epoch .Stale (u.version - 1) pv pp],
              by simp [h, hv, hpp, hpv, h2]⟩
          | ok v2 =>
            cases v2
            exact ⟨[.existenceWithCommitment vrf_public_key root_hash akd_label
              cfg.stale_azks_value u.epoch .Stale (u.version - 1) pv pp],
              by simp [h, hv, hpp, hpv, h2]⟩

/-- When `verify_single_update_proof` succeeds, the result is the record
{epoch, version, value} copied from the update proof. -/
theorem vsup_ok_result (cfg : Configuration) (root_hash : Nat)
    (vrf_public_key : Bytes) (u : UpdateProof) (akd_label : Bytes)
    (params : HistoryVerificationParams) (r : VerifyResult)
    (h : (verify_single_update_proof cfg root_hash vrf_public_key u akd_label params).1 =
      .ok r) :
    r = ⟨u.epoch, u.version, u.value⟩ := by
  unfold verify_single_update_proof at h
  dsimp only at h
  split at h
  · simp at h
  · split at h
    · simp at h; exact h.symm
    · split at h
      · simp at h
      · split at h
        · simp at h
        · split at h
          · simp at h
          · simp at h; exact h.symm

/-- With an all-accepting oracle and previous-version proofs present wherever
the version exceeds 1, `verify_single_update_proof` succeeds. -/
theorem vsup_ok_of_allok (cfg : Configuration) (root_hash : Nat)
    (vrf_public_key : Bytes) (u : UpdateProof) (akd_label : Bytes)
    (params : HistoryVerificationParams)
    (hok : ∀ c, cfg.oracle c = .ok ())
    (hcomp : 1 < u.version →
      u.previous_version_proof ≠ none ∧ u.previous_version_vrf_proof ≠ none) :
    (verify_single_update_proof cfg root_hash vrf_public_key u akd_label params).1 =
      .ok ⟨u.epoch, u.version, u.value⟩ := by
  unfold verify_single_update_proof
  dsimp only
  rw [hok]
  by_cases hv : u.version ≤ 1
  · simp [hv]
  · have h1 : 1 < u.version := by omega
    obtain ⟨hpp, hpv⟩ := hcomp h1
    cases hppe : u.previous_version_proof with
    | none => exact absurd hppe hpp
    | some pp =>
      cases hpve : u.previous_version_vrf_proof with
      | none => exact absurd hpve hpv
      | some pv => simp [hv, hppe, hpve, hok]

/-- When the v2 per-update loop succeeds, the accumulated results are exactly
the input update proofs mapped to {epoch, version, value} records, in input
order. -/
theorem v2_loop_ok_map (cfg : Configuration) (root_hash : Nat)
    (vrf_public_key : Bytes) (akd_label : Bytes)
    (params : HistoryVerificationParams) :
    ∀ (prev : Option Nat) (ups : List UpdateProof)
      (results : List VerifyResult),
    (v2_update_loop cfg root_hash vrf_public_key akd_label params prev ups).1 =
      .ok results →
    results = ups.map fun u => (⟨u.epoch, u.version, u.value⟩ : VerifyResult) := by
  intro prev ups
  induction ups generalizing prev with
  | nil =>
    intro results h
    unfold v2_update_loop at h
    simp at h
    simp [h.symm]
  | cons u rest ih =>
    intro results h
    unfold v2_update_loop at h
    dsimp only at h
    split at h
    · simp at h
    · split at h
      · simp at h
      · rename_i result tr heq
        split at h
        · simp at h
        · rename_i results' tr2 heq2
          simp at h
          have h1 : result = (⟨u.epoch, u.version, u.value⟩ : VerifyResult) :=
            vsup_ok_result cfg root_hash vrf_public_key u akd_label params result
              (by rw [heq])
          have h2 : results' = rest.map fun u => (⟨u.epoch, u.version, u.value⟩ : VerifyResult) :=
            ih (some u.epoch) results' (by rw [heq2])
          simp [← h, h1, h2]

/-- C1: whenever `key_history_verify_v2` returns `Ok(results)`, `results` has
exactly one entry per element of `proof.update_proofs`, in the same order as
the input sequence, and `results[i]` is the record {epoch, version, value}
copied from `update_proofs[i]`. -/
theorem claim_C1_results_in_input_order (cfg : Configuration)
    (vrf_public_key : Bytes) (root_hash : Nat) (current_epoch : Nat)
    (akd_label : Bytes) (proof : HistoryProofV2)
    (verification_params : HistoryVerificationParams)
    (results : List VerifyResult)
    (h : (key_history_verify_v2 cfg vrf_public_key root_hash current_epoch
      akd_label proof verification_params).1 = .ok results) :
    results = proof.update_proofs.map
      fun u => (⟨u.epoch, u.version, u.value⟩ : VerifyResult) := by
  unfold key_history_verify_v2 at h
  dsimp only at h
  split at h
  · simp at h
  · split at h
    · simp at h
    · rename_i results' tr heq
      split at h
      · simp at h
      · split at h
        · simp at h
        · simp at h
          exact h ▸ v2_loop_ok_map cfg root_hash vrf_public_key akd_label
            verification_params none proof.update_proofs results' (by rw [heq])

/-- Witness for C1 at scenario S1 (single fresh insertion). -/
theorem claim_C1_witness :
    ([⟨1, 1, [118]⟩] : List VerifyResult) =
      proofS1.update_proofs.map
        (fun u => (⟨u.epoch, u.version, u.value⟩ : VerifyResult)) :=
  claim_C1_results_in_input_order cfgAll [9] 5 1 [65] proofS1
    (.Default .Complete) [⟨1, 1, [118]⟩] (by rfl)

/-- C2: the single-update verifier skips the value-equality check (calling
`verify_existence` only) if and only if the params are `AllowMissingValues`
and the value equals TOMBSTONE; in every other case it calls
`verify_existence_with_val` with the proof's value, epoch and commitment
nonce; and when that first check fails, the failure is returned — so a
TOMBSTONE under `Default` params is subjected to (and fails via) the
commitment check. -/
theorem claim_C2_tombstone_skip_iff (cfg : Configuration) (root_hash : Nat)
    (vrf_public_key : Bytes) (u : UpdateProof) (akd_label : Bytes)
    (params : HistoryVerificationParams) :
    ((verify_single_update_proof cfg root_hash vrf_public_key u akd_label
        params).2.head? =
      some (.existence vrf_public_key root_hash akd_label .Fresh u.version
        u.existence_vrf_proof u.existence_proof)
      ↔ ((∃ hp, params = .AllowMissingValues hp) ∧ u.value = TOMBSTONE)) ∧
    (¬ ((∃ hp, params = .AllowMissingValues hp) ∧ u.value = TOMBSTONE) →
      (verify_single_update_proof cfg root_hash vrf_public_key u akd_label
          params).2.head? =
        some (.existenceWithVal vrf_public_key root_hash akd_label u.value
          u.epoch u.commitment_nonce .Fresh u.version u.existence_vrf_proof
          u.existence_proof)) ∧
    (∀ e, cfg.oracle (current_version_call vrf_public_key root_hash akd_label
        u params) = .error e →
      (verify_single_update_proof cfg root_hash vrf_public_key u akd_label
        params).1 = .error e) := by
  obtain ⟨rest, hrest⟩ := vsup_trace_head cfg root_hash vrf_public_key u akd_label params
  refine ⟨?_, ?_, ?_⟩
  · rw [hrest]
    simp only [List.head?_cons, Option.some.injEq]
    constructor
    · intro hc
      cases params with
      | Default hp =>
        exfalso
        simp [current_version_call] at hc
      | AllowMissingValues hp =>
        by_cases ht : u.value = TOMBSTONE
        · exact ⟨⟨hp, rfl⟩, ht⟩
        · exfalso
          simp [current_version_call, ht] at hc
    · rintro ⟨⟨hp, rfl⟩, ht⟩
      simp [current_version_call, ht]
  · intro hnot
    rw [hrest]
    simp only [List.head?_cons, Option.some.injEq]
    cases params with
    | Default hp => simp [current_version_call]
    | AllowMissingValues hp =>
      by_cases ht : u.value = TOMBSTONE
      · exact absurd ⟨⟨hp, rfl⟩, ht⟩ hnot
      · simp [current_version_call, ht]
  · intro e he
    unfold verify_single_update_proof
    dsimp only
    rw [he]

/-- Witness for C2: a TOMBSTONE value under `Default` params is passed to the
value-commitment check and the resulting `CommitmentMismatch` is returned. -/
theorem claim_C2_witness :
    (verify_single_update_proof cfgRejectVal 5 [9] (up 1 1 TOMBSTONE false)
      [65] (.Default .Complete)).1 = .error .CommitmentMismatch :=
  (claim_C2_tombstone_skip_iff cfgRejectVal 5 [9] (up 1 1 TOMBSTONE false)
    [65] (.Default .Complete)).2.2 .CommitmentMismatch (by rfl)

/-- C3: for an update proof with version above 1, the single-update verifier
fails with a `HistoryProof` error when either previous-version sub-proof is
absent, and otherwise checks the stale previous version through
`verify_existence_with_commitment` with the configuration's stale sentinel,
epoch equal to the update proof's own epoch (the insertion epoch of the new
version), freshness `Stale`, and version one below the proof's version. -/
theorem claim_C3_stale_previous_version (cfg : Configuration) (root_hash : Nat)
    (vrf_public_key : Bytes) (u : UpdateProof) (akd_label : Bytes)
    (params : HistoryVerificationParams)
    (hv : 1 < u.version)
    (hok : cfg.oracle (current_version_call vrf_public_key root_hash akd_label
      u params) = .ok ()) :
    ((u.previous_version_proof = none ∨ u.previous_version_vrf_proof = none) →
      ∃ m, (verify_single_update_proof cfg root_hash vrf_public_key u akd_label
        params).1 = .error (.HistoryProof m)) ∧
    (∀ pp pv, u.previous_version_proof = some pp →
      u.previous_version_vrf_proof = some pv →
      (verify_single_update_proof cfg root_hash vrf_public_key u akd_label
          params).2 =
        [current_version_call vrf_public_key root_hash akd_label u params,
         .existenceWithCommitment vrf_public_key root_hash akd_label
           cfg.stale_azks_value u.epoch .Stale (u.version - 1) pv pp]) := by
  have hv' : ¬ u.version ≤ 1 := by omega
  constructor
  · intro habs
    unfold verify_single_update_proof
    dsimp only
    rw [hok]
    cases habs with
    | inl hpp =>
      exact ⟨"Missing membership proof for previous version", by simp [hv', hpp]⟩
    | inr hpv =>
      cases hpp : u.previous_version_proof with
      | none => exact ⟨"Missing membership proof for previous version", by simp [hv', hpp]⟩
      | some pp => exact ⟨"Missing VRF proof for previous version", by simp [hv', hpp, hpv]⟩
  · intro pp pv hpp hpv
    unfold verify_single_update_proof
    dsimp only
    rw [hok]
    cases h2 : cfg.oracle (.existenceWithCommitment vrf_public_key root_hash
        akd_label cfg.stale_azks_value u.epoch .Stale (u.version - 1) pv pp) with
    | error e => simp [hv', hpp, hpv, h2]
    | ok v2 => cases v2; simp [hv', hpp, hpv, h2]

/-- Witness for C3: a version-2 update proof with both previous-version
sub-proofs present produces exactly the current-version check followed by the
stale check at version 1 with the configured sentinel and the proof's own
epoch. -/
theorem claim_C3_witness :
    (verify_single_update_proof cfgAll 5 [9] (up 4 2 [3] true) [65]
        (.Default .Complete)).2 =
      [current_version_call [9] 5 [65] (up 4 2 [3] true) (.Default .Complete),
       .existenceWithCommitment [9] 5 [65] 77 4 .Stale 1 22 23] :=
  (claim_C3_stale_previous_version cfgAll 5 [9] (up 4 2 [3] true) [65]
    (.Default .Complete) (by decide) (by rfl)).2 23 22 (by rfl) (by rfl)

/-- The contiguity check only fails with a `HistoryProof` error. -/
theorem check_contiguous_shape : ∀ l : List UpdateProof,
    check_contiguous l = .ok () ∨ ∃ m, check_contiguous l = .error (.HistoryProof m)
  | [] => Or.inl rfl
  | [_] => Or.inl rfl
  | u0 :: u1 :: rest => by
    by_cases h : u1.version + 1 ≠ u0.version
    · exact Or.inr ⟨_, by unfold check_contiguous; rw [if_pos h]⟩
    · have := check_contiguous_shape (u1 :: rest)
      rcases this with h1 | ⟨m, h1⟩
      · exact Or.inl (by unfold check_contiguous; rw [if_neg h]; exact h1)
      · exact Or.inr ⟨m, by unfold check_contiguous; rw [if_neg h]; exact h1⟩

/-- An adjacent version pair violating `version[i+1] + 1 = version[i]` makes
the contiguity check fail with a `HistoryProof` error. -/
theorem check_contiguous_mismatch : ∀ (l : List UpdateProof) (i : Nat)
    (hi : i + 1 < l.length),
    (l.get ⟨i + 1, hi⟩).version + 1 ≠ (l.get ⟨i, Nat.lt_of_succ_lt hi⟩).version →
    ∃ m, check_contiguous l = .error (.HistoryProof m) := by
  intro l
  induction l with
  | nil => intro i hi; simp at hi
  | cons u0 rest ih =>
    intro i hi hne
    cases rest with
    | nil => simp at hi
    | cons u1 rest2 =>
      cases i with
      | zero =>
        have hne' : u1.version + 1 ≠ u0.version := hne
        exact ⟨_, by unfold check_contiguous; rw [if_pos hne']⟩
      | succ j =>
        have hi' : j + 1 < (u1 :: rest2).length := by
          simp only [List.length_cons] at hi ⊢; omega
        obtain ⟨m, hm⟩ := ih j hi' hne
        by_cases h0 : u1.version + 1 ≠ u0.version
        · exact ⟨_, by unfold check_contiguous; rw [if_pos h0]⟩
        · exact ⟨m, by unfold check_contiguous; rw [if_neg h0]; exact hm⟩

/-- The history-params policy check only fails with a `HistoryProof` error. -/
theorem policy_check_shape (s n : Nat) (p : HistoryParams) :
    history_params_policy_check s n p = .ok () ∨
    ∃ m, history_params_policy_check s n p = .error (.HistoryProof m) := by
  cases p with
  | Complete =>
    by_cases h : s ≠ 1
    · exact Or.inr
        ⟨"Expected start version to be 1 given that it is a complete history",
          by simp [history_params_policy_check, h]⟩
    · exact Or.inl (by simp [history_params_policy_check, h])
  | MostRecent r =>
    by_cases h1 : n < r
    · by_cases h2 : s ≠ 1
      · exact Or.inr
          ⟨"Expected start version to be 1 given that the number of proofs returned was less than the recency parameter",
            by simp [history_params_policy_check, h1, h2]⟩
      · exact Or.inl (by simp [history_params_policy_check, h1, h2])
    · by_cases h3 : n > r
      · exact Or.inr ⟨"Expected at most recency update proofs",
          by simp [history_params_policy_check, h1, h3]⟩
      · exact Or.inl (by simp [history_params_policy_check, h1, h3])

/-- What a successful history-params policy check implies. -/
theorem policy_check_ok_implies (s num : Nat) (p : HistoryParams)
    (h : history_params_policy_check s num p = .ok ()) :
    (p = .Complete → s = 1) ∧
    ∀ n, p = .MostRecent n → num ≤ n ∧ (num < n → s = 1) := by
  constructor
  · rintro rfl
    by_cases hs : s ≠ 1
    · simp [history_params_policy_check, hs] at h
    · omega
  · rintro n rfl
    by_cases h1 : num < n
    · by_cases h2 : s ≠ 1
      · simp [history_params_policy_check, h1, h2] at h
      · exact ⟨by omega, fun _ => by omega⟩
    · by_cases h3 : num > n
      · simp [history_params_policy_check, h1, h3] at h
      · exact ⟨by omega, fun hlt => absurd hlt h1⟩

/-- `verify_with_history_params` only fails with a `HistoryProof` error. -/
theorem vwhp_error_history (ce : Nat) (proof : HistoryProofV2)
    (params : HistoryParams) (e : VerificationError)
    (h : verify_with_history_params ce proof params = .error e) :
    isHistoryProofError e = true := by
  unfold verify_with_history_params at h
  dsimp only at h
  split at h
  · cases h; rfl
  · split at h
    · rename_i e' heq
      rcases check_contiguous_shape proof.update_proofs with hc | ⟨m, hc⟩
      · rw [heq] at hc; cases hc
      · rw [heq] at hc
        cases h
        cases hc
        rfl
    · split at h
      · cases h; rfl
      · split at h
        · cases h; rfl
        · split at h
          · rename_i e' heq
            rcases policy_check_shape (computed_start_version proof.update_proofs)
                proof.update_proofs.length params with hp | ⟨m, hp⟩
            · rw [heq] at hp; cases hp
            · rw [heq] at hp
              cases h
              cases hp
              rfl
          · split at h
            · cases h; rfl
            · split at h
              · cases h; rfl
              · split at h
                · cases h; rfl
                · split at h
                  · cases h; rfl
                  · cases h

/-- What a successful `verify_with_history_params` run implies about the
structural and policy checks. -/
theorem vwhp_ok_implies (ce : Nat) (proof : HistoryProofV2)
    (params : HistoryParams) (v : List Nat × List Nat)
    (h : verify_with_history_params ce proof params = .ok v) :
    proof.update_proofs.length ≠ 0 ∧
    computed_start_version proof.update_proofs ≠ 0 ∧
    computed_end_version proof.update_proofs ≤ ce ∧
    history_params_policy_check (computed_start_version proof.update_proofs)
      proof.update_proofs.length params = .ok () := by
  unfold verify_with_history_params at h
  dsimp only at h
  split at h
  · cases h
  · rename_i h0
    split at h
    · cases h
    · split at h
      · cases h
      · split at h
        · cases h
        · rename_i h1 h2
          split at h
          · cases h
          · rename_i heq
            exact ⟨h0, h1, by omega, heq⟩

/-- When the shared structural pipeline fails, `key_history_verify_v2`
returns that error without attempting any cryptographic sub-proof. -/
theorem v2_of_vwhp_error (cfg : Configuration) (vrf_public_key : Bytes)
    (root_hash current_epoch : Nat) (akd_label : Bytes)
    (proof : HistoryProofV2) (vparams : HistoryVerificationParams)
    (e : VerificationError)
    (h : verify_with_history_params current_epoch proof
      (history_params_of vparams) = .error e) :
    key_history_verify_v2 cfg vrf_public_key root_hash current_epoch akd_label
      proof vparams = (.error e, []) := by
  unfold key_history_verify_v2
  dsimp only
  rw [h]

/-- C4: for `key_history_verify_v2` under `MostRecent(n)`: more than `n`
update proofs are always rejected with a `HistoryProof` error; fewer than `n`
update proofs are rejected unless the minimum version is 1; and exactly `n`
update proofs pass the policy check for any minimum version at least 1. -/
theorem claim_C4_most_recent_policy (cfg : Configuration)
    (vrf_public_key : Bytes) (root_hash current_epoch : Nat)
    (akd_label : Bytes) (proof : HistoryProofV2)
    (vparams : HistoryVerificationParams) (n : Nat)
    (hp : history_params_of vparams = .MostRecent n) :
    (n < proof.update_proofs.length →
      resultIsHistoryProofError (key_history_verify_v2 cfg vrf_public_key
        root_hash current_epoch akd_label proof vparams).1 = true) ∧
    (proof.update_proofs.length < n →
      computed_start_version proof.update_proofs ≠ 1 →
      resultIsHistoryProofError (key_history_verify_v2 cfg vrf_public_key
        root_hash current_epoch akd_label proof vparams).1 = true) ∧
    (∀ s, 1 ≤ s → history_params_policy_check s n (.MostRecent n) = .ok ()) := by
  refine ⟨?_, ?_, ?_⟩
  · intro hlen
    cases hv : verify_with_history_params current_epoch proof
        (history_params_of vparams) with
    | ok v =>
      obtain ⟨-, -, -, hpol⟩ := vwhp_ok_implies _ _ _ _ hv
      rw [hp] at hpol
      obtain ⟨hle, -⟩ := (policy_check_ok_implies _ _ _ hpol).2 n rfl
      omega
    | error e =>
      rw [v2_of_vwhp_error cfg vrf_public_key root_hash current_epoch akd_label
        proof vparams e hv]
      exact vwhp_error_history _ _ _ _ hv
  · intro hlen hs
    cases hv : verify_with_history_params current_epoch proof
        (history_params_of vparams) with
    | ok v =>
      obtain ⟨-, -, -, hpol⟩ := vwhp_ok_implies _ _ _ _ hv
      rw [hp] at hpol
      obtain ⟨-, h1⟩ := (policy_check_ok_implies _ _ _ hpol).2 n rfl
      exact absurd (h1 hlen) hs
    | error e =>
      rw [v2_of_vwhp_error cfg vrf_public_key root_hash current_epoch akd_label
        proof vparams e hv]
      exact vwhp_error_history _ _ _ _ hv
  · intro s hs
    simp [history_params_policy_check]

/-- Witness for C4: three update proofs under `MostRecent(2)` are rejected
with a `HistoryProof` error. -/
theorem claim_C4_witness :
    resultIsHistoryProofError (key_history_verify_v2 cfgAll [9] 5 5 [65]
      (HistoryProofV2.mk [up 5 3 [1] true, up 3 2 [2] true, up 2 1 [3] false]
        [100, 102] [101, 103] [104] [105])
      (.Default (.MostRecent 2))).1 = true :=
  (claim_C4_most_recent_policy cfgAll [9] 5 5 [65]
    (HistoryProofV2.mk [up 5 3 [1] true, up 3 2 [2] true, up 2 1 [3] false]
      [100, 102] [101, 103] [104] [105])
    (.Default (.MostRecent 2)) 2 rfl).1 (by decide)

/-- C5: `key_history_verify_v2` rejects with a `HistoryProof` error whenever
the computed minimum version is 0, or the computed maximum version exceeds
`current_epoch`, or the params are `Complete` with minimum version other than
1 — and does so before any cryptographic sub-proof is attempted (empty call
trace). -/
theorem claim_C5_version_range_checks (cfg : Configuration)
    (vrf_public_key : Bytes) (root_hash current_epoch : Nat)
    (akd_label : Bytes) (proof : HistoryProofV2)
    (vparams : HistoryVerificationParams)
    (hbad : computed_start_version proof.update_proofs = 0 ∨
      current_epoch < computed_end_version proof.update_proofs ∨
      (history_params_of vparams = .Complete ∧
        computed_start_version proof.update_proofs ≠ 1)) :
    resultIsHistoryProofError (key_history_verify_v2 cfg vrf_public_key
      root_hash current_epoch akd_label proof vparams).1 = true ∧
    (key_history_verify_v2 cfg vrf_public_key root_hash current_epoch
      akd_label proof vparams).2 = [] := by
  cases hv : verify_with_history_params current_epoch proof
      (history_params_of vparams) with
  | ok v =>
    exfalso
    obtain ⟨-, h1, h2, hpol⟩ := vwhp_ok_implies _ _ _ _ hv
    rcases hbad with hb | hb | ⟨hc, hb⟩
    · exact h1 hb
    · omega
    · rw [hc] at hpol
      exact hb ((policy_check_ok_implies _ _ _ hpol).1 rfl)
  | error e =>
    rw [v2_of_vwhp_error cfg vrf_public_key root_hash current_epoch akd_label
      proof vparams e hv]
    exact ⟨vwhp_error_history _ _ _ _ hv, rfl⟩

/-- Witness for C5: a proof whose only update has version 0 is rejected with
a `HistoryProof` error and an empty cryptographic call trace. -/
theorem claim_C5_witness :
    resultIsHistoryProofError (key_history_verify_v2 cfgAll [9] 5 1 [65]
      (HistoryProofV2.mk [up 1 0 [8] false] [] [] [] [])
      (.Default .Complete)).1 = true ∧
    (key_history_verify_v2 cfgAll [9] 5 1 [65]
      (HistoryProofV2.mk [up 1 0 [8] false] [] [] [] [])
      (.Default .Complete)).2 = [] :=
  claim_C5_version_range_checks cfgAll [9] 5 1 [65]
    (HistoryProofV2.mk [up 1 0 [8] false] [] [] [] [])
    (.Default .Complete) (Or.inl (by decide))

/-- C6: both verifiers reject an empty `update_proofs` with a `HistoryProof`
error, and reject any adjacent pair violating
`version[i+1] + 1 = version[i]` (versions not contiguous strictly
decreasing) with a `HistoryProof` error. -/
theorem claim_C6_contiguity (cfg : Configuration) (vrf_public_key : Bytes)
    (root_hash current_epoch : Nat) (akd_label : Bytes)
    (proof1 : HistoryProof) (proof2 : HistoryProofV2)
    (params : HistoryVerificationParams) (i : Nat) :
    (proof1.update_proofs = [] →
      resultIsHistoryProofError (key_history_verify cfg vrf_public_key
        root_hash current_epoch akd_label proof1 params).1 = true) ∧
    (proof2.update_proofs = [] →
      resultIsHistoryProofError (key_history_verify_v2 cfg vrf_public_key
        root_hash current_epoch akd_label proof2 params).1 = true) ∧
    (∀ hi : i + 1 < proof1.update_proofs.length,
      (proof1.update_proofs.get ⟨i + 1, hi⟩).version + 1 ≠
        (proof1.update_proofs.get ⟨i, Nat.lt_of_succ_lt hi⟩).version →
      resultIsHistoryProofError (key_history_verify cfg vrf_public_key
        root_hash current_epoch akd_label proof1 params).1 = true) ∧
    (∀ hi : i + 1 < proof2.update_proofs.length,
      (proof2.update_proofs.get ⟨i + 1, hi⟩).version + 1 ≠
        (proof2.update_proofs.get ⟨i, Nat.lt_of_succ_lt hi⟩).version →
      resultIsHistoryProofError (key_history_verify_v2 cfg vrf_public_key
        root_hash current_epoch akd_label proof2 params).1 = true) := by
  refine ⟨?_, ?_, ?_, ?_⟩
  · intro h
    unfold key_history_verify
    rw [h]
    rfl
  · intro h
    have hv : verify_with_history_params current_epoch proof2
        (history_params_of params) =
        .error (.HistoryProof "No update proofs included in the proof") := by
      unfold verify_with_history_params
      rw [h]
      rfl
    rw [v2_of_vwhp_error cfg vrf_public_key root_hash current_epoch akd_label
      proof2 params _ hv]
    rfl
  · intro hi hne
    obtain ⟨m, hm⟩ := check_contiguous_mismatch proof1.update_proofs i hi hne
    unfold key_history_verify
    dsimp only
    rw [if_neg (by simp only [List.length_eq_zero]; intro h; rw [h] at hi; simp at hi),
      hm]
    rfl
  · intro hi hne
    obtain ⟨m, hm⟩ := check_contiguous_mismatch proof2.update_proofs i hi hne
    have hv : verify_with_history_params current_epoch proof2
        (history_params_of params) = .error (.HistoryProof m) := by
      unfold verify_with_history_params
      dsimp only
      rw [if_neg (by simp only [List.length_eq_zero]; intro h; rw [h] at hi; simp at hi),
        hm]
    rw [v2_of_vwhp_error cfg vrf_public_key root_hash current_epoch akd_label
      proof2 params _ hv]
    rfl

/-- Witness for C6: a version gap (3 followed by 1) is rejected by both
verifiers. -/
theorem claim_C6_witness :
    resultIsHistoryProofError (key_history_verify cfgAll [9] 5 10 [65]
      (HistoryProof.mk [up 9 3 [1] true, up 7 1 [2] false] [] [] [] [])
      (.Default .Complete)).1 = true ∧
    resultIsHistoryProofError (key_history_verify_v2 cfgAll [9] 5 10 [65]
      (HistoryProofV2.mk [up 9 3 [1] true, up 7 1 [2] false] [] [] [] [])
      (.Default .Complete)).1 = true :=
  ⟨(claim_C6_contiguity cfgAll [9] 5 10 [65]
      (HistoryProof.mk [up 9 3 [1] true, up 7 1 [2] false] [] [] [] [])
      (HistoryProofV2.mk [up 9 3 [1] true, up 7 1 [2] false] [] [] [] [])
      (.Default .Complete) 0).2.2.1 (by decide) (by decide),
   (claim_C6_contiguity cfgAll [9] 5 10 [65]
      (HistoryProof.mk [up 9 3 [1] true, up 7 1 [2] false] [] [] [] [])
      (HistoryProofV2.mk [up 9 3 [1] true, up 7 1 [2] false] [] [] [] [])
      (.Default .Complete) 0).2.2.2 (by decide) (by decide)⟩

/-- With an all-accepting oracle and complete update proofs, the v2 loop
started with a previous epoch `pe` fails (with a `HistoryProof` error) exactly
when the epoch sequence `pe, epochs...` has an adjacent increase. -/
theorem v2_loop_epoch_chain_aux (cfg : Configuration) (root_hash : Nat)
    (vrf_public_key : Bytes) (akd_label : Bytes)
    (params : HistoryVerificationParams)
    (hok : ∀ c, cfg.oracle c = .ok ()) :
    ∀ (ups : List UpdateProof),
    (∀ u ∈ ups, 1 < u.version →
      u.previous_version_proof ≠ none ∧ u.previous_version_vrf_proof ≠ none) →
    ∀ pe : Nat,
    (resultIsHistoryProofError
        (v2_update_loop cfg root_hash vrf_public_key akd_label params
          (some pe) ups).1 = true ↔
      ¬ List.Chain (fun a b => b ≤ a) pe (ups.map UpdateProof.epoch)) := by
  intro ups
  induction ups with
  | nil =>
    intro _ pe
    unfold v2_update_loop
    simp [resultIsHistoryProofError]
  | cons u rest ih =>
    intro hcomp pe
    unfold v2_update_loop
    dsimp only
    by_cases hgt : u.epoch > pe
    · rw [if_pos (decide_eq_true hgt)]
      constructor
      · intro _
        rw [List.map_cons, List.chain_cons]
        rintro ⟨hle, -⟩
        omega
      · intro _
        rfl
    · rw [if_neg (by simp [hgt])]
      have hv := vsup_ok_of_allok cfg root_hash vrf_public_key u akd_label
        params hok (fun h1 => hcomp u (by simp) h1)
      rcases hvs : verify_single_update_proof cfg root_hash vrf_public_key u
          akd_label params with ⟨res, tr⟩
      rw [hvs] at hv
      rw [show res = Except.ok (⟨u.epoch, u.version, u.value⟩ : VerifyResult) from hv]
      dsimp only
      have ihs := ih (fun w hw => hcomp w (by simp [hw]) ) u.epoch
      rcases hrec : v2_update_loop cfg root_hash vrf_public_key akd_label
          params (some u.epoch) rest with ⟨res2, tr2⟩
      rw [hrec] at ihs
      rw [List.map_cons, List.chain_cons]
      cases res2 with
      | error e =>
        dsimp only
        simp only [resultIsHistoryProofError] at ihs ⊢
        rw [ihs]
        constructor
        · rintro hnc ⟨-, hc⟩
          exact hnc hc
        · intro hnc hc
          exact hnc ⟨by omega, hc⟩
      | ok results =>
        dsimp only
        simp only [resultIsHistoryProofError] at ihs ⊢
        constructor
        · intro hfalse
          exact absurd hfalse (by simp)
        · intro hnc
          exfalso
          exact hnc ⟨by omega, not_not.mp (fun hc => absurd (ihs.mpr hc) (by simp))⟩

/-- As `v2_loop_epoch_chain_aux`, for the v1 loop (which additionally tracks
the maximum version). -/
theorem v1_loop_epoch_chain_aux (cfg : Configuration) (root_hash : Nat)
    (vrf_public_key : Bytes) (akd_label : Bytes)
    (params : HistoryVerificationParams)
    (hok : ∀ c, cfg.oracle c = .ok ()) :
    ∀ (ups : List UpdateProof),
    (∀ u ∈ ups, 1 < u.version →
      u.previous_version_proof ≠ none ∧ u.previous_version_vrf_proof ≠ none) →
    ∀ (lv pe : Nat),
    (resultIsHistoryProofError
        (v1_update_loop cfg root_hash vrf_public_key akd_label params lv
          (some pe) ups).1 = true ↔
      ¬ List.Chain (fun a b => b ≤ a) pe (ups.map UpdateProof.epoch)) := by
  intro ups
  induction ups with
  | nil =>
    intro _ lv pe
    unfold v1_update_loop
    simp [resultIsHistoryProofError]
  | cons u rest ih =>
    intro hcomp lv pe
    unfold v1_update_loop
    dsimp only
    by_cases hgt : u.epoch > pe
    · rw [if_pos (decide_eq_true hgt)]
      constructor
      · intro _
        rw [List.map_cons, List.chain_cons]
        rintro ⟨hle, -⟩
        omega
      · intro _
        rfl
    · rw [if_neg (by simp [hgt])]
      have hv := vsup_ok_of_allok cfg root_hash vrf_public_key u akd_label
        params hok (fun h1 => hcomp u (by simp) h1)
      rcases hvs : verify_single_update_proof cfg root_hash vrf_public_key u
          akd_label params with ⟨res, tr⟩
      rw [hvs] at hv
      rw [show res = Except.ok (⟨u.epoch, u.version, u.value⟩ : VerifyResult) from hv]
      dsimp only
      have ihs := ih (fun w hw => hcomp w (by simp [hw]))
        (if u.version > lv then u.version else lv) u.epoch
      rcases hrec : v1_update_loop cfg root_hash vrf_public_key akd_label
          params (if u.version > lv then u.version else lv) (some u.epoch)
          rest with ⟨res2, tr2⟩
      rw [hrec] at ihs
      rw [List.map_cons, List.chain_cons]
      cases res2 with
      | error e =>
        dsimp only
        simp only [resultIsHistoryProofError] at ihs ⊢
        rw [ihs]
        constructor
        · rintro hnc ⟨-, hc⟩
          exact hnc hc
        · intro hnc hc
          exact hnc ⟨by omega, hc⟩
      | ok results =>
        rcases results with ⟨lvf, rs⟩
        dsimp only
        simp only [resultIsHistoryProofError] at ihs ⊢
        constructor
        · intro hfalse
          exact absurd hfalse (by simp)
        · intro hnc
          exfalso
          exact hnc ⟨by omega, not_not.mp (fun hc => absurd (ihs.mpr hc) (by simp))⟩

/-- The adjacent-pair reading of epoch monotonicity. -/
theorem epoch_chain_iff_pairs (ups : List UpdateProof) :
    List.Chain' (fun a b : Nat => b ≤ a) (ups.map UpdateProof.epoch) ↔
    ∀ (i : Nat) (hi : i + 1 < ups.length),
      (ups.get ⟨i + 1, hi⟩).epoch ≤ (ups.get ⟨i, Nat.lt_of_succ_lt hi⟩).epoch := by
  rw [List.chain'_iff_get]
  constructor
  · intro h i hi
    have hx := h i (by simp only [List.length_map]; omega)
    simp only [List.get_eq_getElem, List.getElem_map] at hx
    simpa [List.get_eq_getElem] using hx
  · intro h i hi
    simp only [List.length_map] at hi
    have hx := h i (by omega)
    simp only [List.get_eq_getElem, List.getElem_map]
    simpa [List.get_eq_getElem] using hx

/-- C7: in both verifiers' per-update loops (with an all-accepting
cryptographic oracle and previous-version sub-proofs present wherever
needed, so that the epoch check is the only possible failure), a
`HistoryProof` error is raised if and only if some update proof's epoch is
strictly greater than the epoch of the previously processed update proof;
in particular two consecutive equal epochs are accepted. -/
theorem claim_C7_epoch_monotonicity (cfg : Configuration) (root_hash : Nat)
    (vrf_public_key : Bytes) (akd_label : Bytes)
    (params : HistoryVerificationParams) (ups : List UpdateProof) (lv0 : Nat)
    (hok : ∀ c, cfg.oracle c = .ok ())
    (hcomp : ∀ u ∈ ups, 1 < u.version →
      u.previous_version_proof ≠ none ∧ u.previous_version_vrf_proof ≠ none) :
    (resultIsHistoryProofError (v1_update_loop cfg root_hash vrf_public_key
        akd_label params lv0 none ups).1 = true ↔
      ∃ i, ∃ hi : i + 1 < ups.length,
        (ups.get ⟨i, Nat.lt_of_succ_lt hi⟩).epoch < (ups.get ⟨i + 1, hi⟩).epoch) ∧
    (resultIsHistoryProofError (v2_update_loop cfg root_hash vrf_public_key
        akd_label params none ups).1 = true ↔
      ∃ i, ∃ hi : i + 1 < ups.length,
        (ups.get ⟨i, Nat.lt_of_succ_lt hi⟩).epoch < (ups.get ⟨i + 1, hi⟩).epoch) := by
  have hpairs : ¬ List.Chain' (fun a b : Nat => b ≤ a) (ups.map UpdateProof.epoch) ↔
      ∃ i, ∃ hi : i + 1 < ups.length,
        (ups.get ⟨i, Nat.lt_of_succ_lt hi⟩).epoch < (ups.get ⟨i + 1, hi⟩).epoch := by
    rw [epoch_chain_iff_pairs]
    push_neg
    constructor
    · rintro ⟨i, hi, hlt⟩
      exact ⟨i, hi, hlt⟩
    · rintro ⟨i, hi, hlt⟩
      exact ⟨i, hi, hlt⟩
  constructor
  · cases ups with
    | nil =>
      unfold v1_update_loop
      simp only [resultIsHistoryProofError]
      constructor
      · intro h; simp at h
      · rintro ⟨i, hi, -⟩; simp at hi
    | cons u rest =>
      rw [← hpairs]
      unfold v1_update_loop
      dsimp only
      rw [if_neg (by simp)]
      have hv := vsup_ok_of_allok cfg root_hash vrf_public_key u akd_label
        params hok (fun h1 => hcomp u (by simp) h1)
      rcases hvs : verify_single_update_proof cfg root_hash vrf_public_key u
          akd_label params with ⟨res, tr⟩
      rw [hvs] at hv
      rw [show res = Except.ok (⟨u.epoch, u.version, u.value⟩ : VerifyResult) from hv]
      dsimp only
      have ihs := v1_loop_epoch_chain_aux cfg root_hash vrf_public_key
        akd_label params hok rest (fun w hw => hcomp w (by simp [hw]))
        (if u.version > lv0 then u.version else lv0) u.epoch
      have hbridge : List.Chain' (fun a b : Nat => b ≤ a)
          ((u :: rest).map UpdateProof.epoch) ↔
          List.Chain (fun a b : Nat => b ≤ a) u.epoch
            (rest.map UpdateProof.epoch) := Iff.rfl
      rw [hbridge]
      rcases hrec : v1_update_loop cfg root_hash vrf_public_key akd_label
          params (if u.version > lv0 then u.version else lv0) (some u.epoch)
          rest with ⟨res2, tr2⟩
      rw [hrec] at ihs
      cases res2 with
      | error e =>
        dsimp only
        exact ihs
      | ok results =>
        rcases results with ⟨lvf, rs⟩
        dsimp only
        simp only [resultIsHistoryProofError] at ihs ⊢
        constructor
        · intro h; simp at h
        · intro hnc
          exact absurd (ihs.mpr hnc) (by simp)
  · cases ups with
    | nil =>
      unfold v2_update_loop
      simp only [resultIsHistoryProofError]
      constructor
      · intro h; simp at h
      · rintro ⟨i, hi, -⟩; simp at hi
    | cons u rest =>
      rw [← hpairs]
      unfold v2_update_loop
      dsimp only
      rw [if_neg (by simp)]
      have hv := vsup_ok_of_allok cfg root_hash vrf_public_key u akd_label
        params hok (fun h1 => hcomp u (by simp) h1)
      rcases hvs : verify_single_update_proof cfg root_hash vrf_public_key u
          akd_label params with ⟨res, tr⟩
      rw [hvs] at hv
      rw [show res = Except.ok (⟨u.epoch, u.version, u.value⟩ : VerifyResult) from hv]
      dsimp only
      have ihs := v2_loop_epoch_chain_aux cfg root_hash vrf_public_key
        akd_label params hok rest (fun w hw => hcomp w (by simp [hw])) u.epoch
      have hbridge : List.Chain' (fun a b : Nat => b ≤ a)
          ((u :: rest).map UpdateProof.epoch) ↔
          List.Chain (fun a b : Nat => b ≤ a) u.epoch
            (rest.map UpdateProof.epoch) := Iff.rfl
      rw [hbridge]
      rcases hrec : v2_update_loop cfg root_hash vrf_public_key akd_label
          params (some u.epoch) rest with ⟨res2, tr2⟩
      rw [hrec] at ihs
      cases res2 with
      | error e =>
        dsimp only
        exact ihs
      | ok results =>
        dsimp only
        simp only [resultIsHistoryProofError] at ihs ⊢
        constructor
        · intro h; simp at h
        · intro hnc
          exact absurd (ihs.mpr hnc) (by simp)

/-- Witness for C7: an epoch increase (3 then 5) between two consecutive
update proofs makes both loops fail with a `HistoryProof` error. -/
theorem claim_C7_witness :
    resultIsHistoryProofError (v1_update_loop cfgAll 5 [9] [65]
      (.Default .Complete) 0 none [up 3 2 [1] true, up 5 1 [2] false]).1 = true ∧
    resultIsHistoryProofError (v2_update_loop cfgAll 5 [9] [65]
      (.Default .Complete) none [up 3 2 [1] true, up 5 1 [2] false]).1 = true :=
  ⟨(claim_C7_epoch_monotonicity cfgAll 5 [9] [65] (.Default .Complete)
      [up 3 2 [1] true, up 5 1 [2] false] 0 (fun _ => rfl) (by decide)).1.mpr
      ⟨0, by decide, by decide⟩,
   (claim_C7_epoch_monotonicity cfgAll 5 [9] [65] (.Default .Complete)
      [up 3 2 [1] true, up 5 1 [2] false] 0 (fun _ => rfl) (by decide)).2.mpr
      ⟨0, by decide, by decide⟩⟩

/-- With an all-accepting oracle, a non-existence marker loop checks every
triple, in order. -/
theorem nonexistence_loop_allok (cfg : Configuration) (vrf_public_key : Bytes)
    (root_hash : Nat) (akd_label : Bytes) (errMsg : String)
    (hok : ∀ c, cfg.oracle c = .ok ()) :
    ∀ triples : List (Nat × Nat × Nat),
    nonexistence_marker_loop cfg vrf_public_key root_hash akd_label errMsg
        triples =
      (.ok (), triples.map fun t =>
        .nonexistence vrf_public_key root_hash akd_label .Fresh t.1 t.2.1 t.2.2) := by
  intro triples
  induction triples with
  | nil => rfl
  | cons t rest ih =>
    rcases t with ⟨v, vp, np⟩
    unfold nonexistence_marker_loop
    dsimp only
    rw [hok]
    dsimp only
    rw [ih]
    rfl

/-- A non-existence marker loop only fails with the wrapped `HistoryProof`
error. -/
theorem nonexistence_loop_error_shape (cfg : Configuration)
    (vrf_public_key : Bytes) (root_hash : Nat) (akd_label : Bytes)
    (errMsg : String) :
    ∀ (triples : List (Nat × Nat × Nat)) (e : VerificationError),
    (nonexistence_marker_loop cfg vrf_public_key root_hash akd_label errMsg
      triples).1 = .error e →
    e = .HistoryProof errMsg := by
  intro triples
  induction triples with
  | nil => intro e h; simp [nonexistence_marker_loop] at h
  | cons t rest ih =>
    rcases t with ⟨v, vp, np⟩
    intro e h
    unfold nonexistence_marker_loop at h
    dsimp only at h
    split at h
    · dsimp only at h
      injection h with h'
      exact h'.symm
    · rcases hrec : nonexistence_marker_loop cfg vrf_public_key root_hash
          akd_label errMsg rest with ⟨r, tr⟩
      rw [hrec] at h
      dsimp only at h
      apply ih e
      rw [hrec]
      exact h

/-- The v1 marker section only fails with a `HistoryProof` error. -/
theorem v1_marker_checks_shape (cfg : Configuration) (vrf_public_key : Bytes)
    (root_hash : Nat) (akd_label : Bytes) (current_epoch last_version : Nat)
    (proof : HistoryProof) :
    (v1_marker_checks cfg vrf_public_key root_hash akd_label current_epoch
      last_version proof).1 = .ok () ∨
    ∃ m, (v1_marker_checks cfg vrf_public_key root_hash akd_label current_epoch
      last_version proof).1 = .error (.HistoryProof m) := by
  unfold v1_marker_checks
  dsimp only
  split
  · exact Or.inr ⟨_, rfl⟩
  · split
    · exact Or.inr ⟨_, rfl⟩
    · rcases hl : nonexistence_marker_loop cfg vrf_public_key root_hash
          akd_label "Non-existence of next few proof of label does not verify"
          ((List.range' (last_version + 1)
            (2 ^ (get_marker_version_log2 last_version + 1) - last_version - 1)).zip
            (proof.until_marker_vrf_proofs.zip
              proof.non_existence_until_marker_proofs)) with ⟨r, tr⟩
      cases r with
      | error e =>
        dsimp only
        have he := nonexistence_loop_error_shape cfg vrf_public_key root_hash
          akd_label _ _ e (by rw [hl])
        exact Or.inr ⟨_, by rw [he]⟩
      | ok v =>
        cases v
        dsimp only
        split
        · exact Or.inr ⟨_, rfl⟩
        · split
          · exact Or.inr ⟨_, rfl⟩
          · rcases hl2 : nonexistence_marker_loop cfg vrf_public_key root_hash
                akd_label "Non-existence of future marker proof of label does not verify"
                (((List.range' (get_marker_version_log2 last_version + 1)
                    (get_marker_version_log2 current_epoch + 1 -
                      (get_marker_version_log2 last_version + 1))).map
                  fun pow => 2 ^ pow).zip
                  (proof.future_marker_vrf_proofs.zip
                    proof.non_existence_of_future_marker_proofs)) with ⟨r2, tr2⟩
            cases r2 with
            | error e2 =>
              dsimp only
              have he := nonexistence_loop_error_shape cfg vrf_public_key
                root_hash akd_label _ _ e2 (by rw [hl2])
              exact Or.inr ⟨_, by rw [he]⟩
            | ok v2 =>
              cases v2
              exact Or.inl rfl

/-- A successful v1 marker section implies all four count checks passed. -/
theorem v1_marker_checks_ok_counts (cfg : Configuration)
    (vrf_public_key : Bytes) (root_hash : Nat) (akd_label : Bytes)
    (current_epoch last_version : Nat) (proof : HistoryProof)
    (h : (v1_marker_checks cfg vrf_public_key root_hash akd_label current_epoch
      last_version proof).1 = .ok ()) :
    proof.until_marker_vrf_proofs.length =
      2 ^ (get_marker_version_log2 last_version + 1) - last_version - 1 ∧
    proof.non_existence_until_marker_proofs.length =
      proof.until_marker_vrf_proofs.length ∧
    proof.future_marker_vrf_proofs.length =
      get_marker_version_log2 current_epoch + 1 -
        (get_marker_version_log2 last_version + 1) ∧
    proof.non_existence_of_future_marker_proofs.length =
      proof.future_marker_vrf_proofs.length := by
  unfold v1_marker_checks at h
  dsimp only at h
  split at h
  · simp at h
  · rename_i h1
    split at h
    · simp at h
    · rename_i h2
      split at h
      · simp at h
      · rename_i r tr hl
        split at h
        · simp at h
        · rename_i h3
          split at h
          · simp at h
          · rename_i h4
            split at h
            · simp at h
            · exact ⟨by omega, by omega, by omega, by omega⟩

/-- C8: in `key_history_verify` (v1), with `next_marker = marker_exp(lv) + 1`
and `final_marker = marker_exp(current_epoch)`, the marker section rejects
with a `HistoryProof` error whenever the number of until-marker proofs (of
either kind) differs from `(1 << next_marker) - lv - 1` or the number of
future-marker proofs (of either kind) differs from
`final_marker + 1 - next_marker`; and with matching counts it checks
non-existence with `Fresh` freshness at every version in
`[lv + 1, 1 << next_marker)` in ascending order followed by every version
`1 << p` for `p` in `[next_marker, final_marker]` in ascending order.  The
hypothesis `v1_marker_arith_ok` pins the inputs on which the source's `u64`
arithmetic agrees with this model's `Nat` arithmetic. -/
theorem claim_C8_v1_marker_section (cfg : Configuration)
    (vrf_public_key : Bytes) (root_hash : Nat) (akd_label : Bytes)
    (current_epoch last_version : Nat) (proof : HistoryProof)
    (harith : v1_marker_arith_ok last_version current_epoch) :
    ((proof.until_marker_vrf_proofs.length ≠
        2 ^ (get_marker_version_log2 last_version + 1) - last_version - 1 ∨
      proof.non_existence_until_marker_proofs.length ≠
        proof.until_marker_vrf_proofs.length ∨
      proof.future_marker_vrf_proofs.length ≠
        get_marker_version_log2 current_epoch + 1 -
          (get_marker_version_log2 last_version + 1) ∨
      proof.non_existence_of_future_marker_proofs.length ≠
        proof.future_marker_vrf_proofs.length) →
      resultIsHistoryProofError (v1_marker_checks cfg vrf_public_key root_hash
        akd_label current_epoch last_version proof).1 = true) ∧
    ((∀ c, cfg.oracle c = .ok ()) →
      proof.until_marker_vrf_proofs.length =
        2 ^ (get_marker_version_log2 last_version + 1) - last_version - 1 →
      proof.non_existence_until_marker_proofs.length =
        proof.until_marker_vrf_proofs.length →
      proof.future_marker_vrf_proofs.length =
        get_marker_version_log2 current_epoch + 1 -
          (get_marker_version_log2 last_version + 1) →
      proof.non_existence_of_future_marker_proofs.length =
        proof.future_marker_vrf_proofs.length →
      v1_marker_checks cfg vrf_public_key root_hash akd_label current_epoch
          last_version proof =
        (.ok (),
          ((List.range' (last_version + 1)
              (2 ^ (get_marker_version_log2 last_version + 1) - last_version - 1)).zip
            (proof.until_marker_vrf_proofs.zip
              proof.non_existence_until_marker_proofs)).map
            (fun t => .nonexistence vrf_public_key root_hash akd_label .Fresh
              t.1 t.2.1 t.2.2) ++
          (((List.range' (get_marker_version_log2 last_version + 1)
              (get_marker_version_log2 current_epoch + 1 -
                (get_marker_version_log2 last_version + 1))).map
              fun pow => 2 ^ pow).zip
            (proof.future_marker_vrf_proofs.zip
              proof.non_existence_of_future_marker_proofs)).map
            (fun t => .nonexistence vrf_public_key root_hash akd_label .Fresh
              t.1 t.2.1 t.2.2))) := by
  constructor
  · intro hmis
    rcases v1_marker_checks_shape cfg vrf_public_key root_hash akd_label
        current_epoch last_version proof with hk | ⟨m, hm⟩
    · obtain ⟨e1, e2, e3, e4⟩ := v1_marker_checks_ok_counts cfg vrf_public_key
        root_hash akd_label current_epoch last_version proof hk
      rcases hmis with hx | hx | hx | hx <;> omega
    · rw [hm]
      rfl
  · intro hok h1 h2 h3 h4
    unfold v1_marker_checks
    dsimp only
    rw [if_neg (by omega), if_neg (by omega)]
    rw [nonexistence_loop_allok cfg vrf_public_key root_hash akd_label _ hok]
    dsimp only
    rw [if_neg (by omega), if_neg (by omega)]
    rw [nonexistence_loop_allok cfg vrf_public_key root_hash akd_label _ hok]

/-- Witness for C8: with `last_version = 2` and `current_epoch = 2`
(`next_marker = 2`, `final_marker = 1`), exactly one until-marker proof (for
version 3) and zero future-marker proofs are expected, and the section
performs the single Fresh non-existence check at version 3. -/
theorem claim_C8_witness :
    v1_marker_checks cfgAll [9] 5 [65] 2 2
        (HistoryProof.mk [] [201] [202] [] []) =
      (.ok (), [.nonexistence [9] 5 [65] .Fresh 3 201 202]) :=
  (claim_C8_v1_marker_section cfgAll [9] 5 [65] 2 2
    (HistoryProof.mk [] [201] [202] [] []) (by decide)).2
    (fun _ => rfl) rfl rfl rfl rfl

/-- `get_marker_version_log2` is monotone. -/
theorem gmvl_mono {a b : Nat} (h : a ≤ b) :
    get_marker_version_log2 a ≤ get_marker_version_log2 b := by
  unfold get_marker_version_log2
  have hc : ((List.range 64).countP fun k => decide (2 ^ k ≤ a)) ≤
      ((List.range 64).countP fun k => decide (2 ^ k ≤ b)) := by
    apply List.countP_mono_left
    intro k _ hk
    exact decide_eq_true (le_trans (of_decide_eq_true hk) h)
  omega

/-- For a 63-bit value, at most 63 exponents below 64 have `2 ^ k ≤ a`. -/
theorem gmvl_countP_le (a : Nat) (h : a < 2 ^ 63) :
    ((List.range 64).countP fun k => decide (2 ^ k ≤ a)) ≤ 63 := by
  have h64 : (64 : Nat) = 63 + 1 := rfl
  rw [h64, List.range_succ, List.countP_append]
  have h1 : List.countP (fun k => decide (2 ^ k ≤ a)) [63] = 0 := by
    have e63 : (2 : Nat) ^ 63 = 9223372036854775808 := by norm_num
    simp only [List.countP_cons, List.countP_nil, decide_eq_true_eq,
      Nat.zero_add]
    rw [if_neg (by omega)]
  have h2 : List.countP (fun k => decide (2 ^ k ≤ a)) (List.range 63) ≤ 63 := by
    calc List.countP (fun k => decide (2 ^ k ≤ a)) (List.range 63) ≤
        (List.range 63).length := List.countP_le_length _
      _ = 63 := by simp
  omega

/-- For a 63-bit value, the shift amount `marker_exp + 1` stays below 64. -/
theorem gmvl_lt_64 (a : Nat) (h : a < 2 ^ 63) :
    get_marker_version_log2 a + 1 < 64 := by
  unfold get_marker_version_log2
  have := gmvl_countP_le a h
  omega

/-- For a 63-bit value, the next marker's power of two exceeds the value. -/
theorem gmvl_pow_gt (a : Nat) (h : a < 2 ^ 63) :
    a + 1 ≤ 2 ^ (get_marker_version_log2 a + 1) := by
  by_cases h0 : a = 0
  · subst h0
    decide
  · have hcle : ((List.range 64).countP fun k => decide (2 ^ k ≤ a)) ≤ 63 :=
      gmvl_countP_le a h
    have hcpos : 0 < ((List.range 64).countP fun k => decide (2 ^ k ≤ a)) := by
      rw [List.countP_pos_iff]
      exact ⟨0, by simp, by simp; omega⟩
    have hg : get_marker_version_log2 a + 1 =
        ((List.range 64).countP fun k => decide (2 ^ k ≤ a)) := by
      unfold get_marker_version_log2
      omega
    rw [hg]
    by_contra hcon
    push_neg at hcon
    have hle : 2 ^ ((List.range 64).countP fun k => decide (2 ^ k ≤ a)) ≤ a := by
      omega
    have hall : ∀ k ∈ List.range
        (((List.range 64).countP fun k => decide (2 ^ k ≤ a)) + 1),
        (fun k => decide (2 ^ k ≤ a)) k := by
      intro k hk
      simp only [List.mem_range] at hk
      exact decide_eq_true
        (le_trans (Nat.pow_le_pow_right (by norm_num) (by omega)) hle)
    have hsub : List.countP (fun k => decide (2 ^ k ≤ a))
        (List.range (((List.range 64).countP fun k => decide (2 ^ k ≤ a)) + 1)) =
        ((List.range 64).countP fun k => decide (2 ^ k ≤ a)) + 1 := by
      rw [List.countP_eq_length.mpr hall]
      simp
    have hsubl : List.Sublist
        (List.range (((List.range 64).countP fun k => decide (2 ^ k ≤ a)) + 1))
        (List.range 64) :=
      List.range_sublist.mpr (by omega)
    have hsl : List.countP (fun k => decide (2 ^ k ≤ a))
        (List.range (((List.range 64).countP fun k => decide (2 ^ k ≤ a)) + 1)) ≤
        ((List.range 64).countP fun k => decide (2 ^ k ≤ a)) :=
      List.Sublist.countP_le (fun k => decide (2 ^ k ≤ a)) hsubl
    omega

/-- Counterexample to C9: the concrete v1 input consisting of the single
update proof (version 8, epoch 1, previous-version sub-proofs present) under
an all-accepting oracle passes the non-emptiness, contiguity,
epoch-monotonicity and per-update checks at `current_epoch = 1`, yet the
future-marker count `final_marker + 1 - next_marker = 0 + 1 - 4` underflows
`u64`; and at `last_version = current_epoch = 2 ^ 63` the shift
`1 << next_marker = 1 << 64` overflows. -/
theorem claim_C9_counterexample :
    check_contiguous [up 1 8 [7] true] = .ok () ∧
    (v1_update_loop cfgAll 5 [9] [65] (.Default .Complete) 0 none
      [up 1 8 [7] true]).1 = .ok (8, [⟨1, 8, [7]⟩]) ∧
    ¬ v1_marker_arith_ok 8 1 ∧
    ¬ v1_marker_arith_ok (2 ^ 63) (2 ^ 63) :=
  ⟨rfl, rfl, by decide, by decide⟩

/-- C9 (amended): the v1 marker-count arithmetic is well-defined over `u64`
provided the maximum proved version does not exceed the current epoch (the
check v1, unlike v2, omits) and the current epoch is below `2 ^ 63`: then the
shift does not overflow and neither subtraction underflows. -/
theorem claim_C9_amended_arith_ok (last_version current_epoch : Nat)
    (h1 : last_version ≤ current_epoch) (h2 : current_epoch < 2 ^ 63) :
    v1_marker_arith_ok last_version current_epoch := by
  have hlt : last_version < 2 ^ 63 := lt_of_le_of_lt h1 h2
  refine ⟨gmvl_lt_64 last_version hlt, gmvl_pow_gt last_version hlt, ?_⟩
  have := gmvl_mono h1
  omega

/-- Witness for the amended C9. -/
theorem claim_C9_witness : v1_marker_arith_ok 3 5 :=
  claim_C9_amended_arith_ok 3 5 (by decide) (by decide)

/-- A legacy v1 history proof whose update proofs cover versions 1 and 0
(descending, contiguous): version 0 is accepted structurally by v1. -/
def proofV1zero : HistoryProof :=
  { update_proofs := [up 1 1 [7] false, up 1 0 [8] false],
    until_marker_vrf_proofs := [], non_existence_until_marker_proofs := [],
    future_marker_vrf_proofs := [],
    non_existence_of_future_marker_proofs := [] }

/-- C10: `verify_single_update_proof` skips the previous-version staleness
check for any update proof with version at most 1 — version 0 included, with
no previous-version sub-proofs required; a v1 proof whose versions include 0
is not rejected structurally (witnessed by a concrete run that succeeds),
whereas v2 rejects a computed start version of 0. -/
theorem claim_C10_version_zero (cfg : Configuration) (root_hash : Nat)
    (vrf_public_key : Bytes) (u : UpdateProof) (akd_label : Bytes)
    (params : HistoryVerificationParams)
    (cfg2 : Configuration) (vrf2 : Bytes) (root2 ce2 : Nat) (label2 : Bytes)
    (proof2 : HistoryProofV2) (vparams2 : HistoryVerificationParams) :
    (u.version ≤ 1 →
      cfg.oracle (current_version_call vrf_public_key root_hash akd_label u
        params) = .ok () →
      verify_single_update_proof cfg root_hash vrf_public_key u akd_label
          params =
        (.ok ⟨u.epoch, u.version, u.value⟩,
          [current_version_call vrf_public_key root_hash akd_label u params])) ∧
    ((key_history_verify cfgAll [9] 5 1 [65] proofV1zero
        (.Default .Complete)).1 =
      .ok [⟨1, 1, [7]⟩, ⟨1, 0, [8]⟩]) ∧
    (computed_start_version proof2.update_proofs = 0 →
      resultIsHistoryProofError (key_history_verify_v2 cfg2 vrf2 root2 ce2
        label2 proof2 vparams2).1 = true) := by
  refine ⟨?_, by rfl, ?_⟩
  · intro hv hok
    unfold verify_single_update_proof
    dsimp only
    rw [hok, if_pos hv]
  · intro h0
    cases hv : verify_with_history_params ce2 proof2
        (history_params_of vparams2) with
    | ok v =>
      obtain ⟨-, h1, -, -⟩ := vwhp_ok_implies _ _ _ _ hv
      exact absurd h0 h1
    | error e =>
      rw [v2_of_vwhp_error cfg2 vrf2 root2 ce2 label2 proof2 vparams2 e hv]
      exact vwhp_error_history _ _ _ _ hv

/-- Witness for C10: a version-0 update proof with no previous-version
sub-proofs passes the single-update verifier with only the current-version
check, and the same version-0 update inside a v2 proof is rejected. -/
theorem claim_C10_witness :
    verify_single_update_proof cfgAll 5 [9] (up 5 0 [3] false) [65]
        (.Default .Complete) =
      (.ok ⟨5, 0, [3]⟩,
        [current_version_call [9] 5 [65] (up 5 0 [3] false)
          (.Default .Complete)]) ∧
    resultIsHistoryProofError (key_history_verify_v2 cfgAll [9] 5 1 [65]
      (HistoryProofV2.mk [up 1 0 [9] false] [] [] [] [])
      (.Default .Complete)).1 = true :=
  ⟨(claim_C10_version_zero cfgAll 5 [9] (up 5 0 [3] false) [65]
      (.Default .Complete) cfgAll [9] 5 1 [65]
      (HistoryProofV2.mk [up 1 0 [9] false] [] [] [] [])
      (.Default .Complete)).1 (by decide) (by rfl),
   (claim_C10_version_zero cfgAll 5 [9] (up 5 0 [3] false) [65]
      (.Default .Complete) cfgAll [9] 5 1 [65]
      (HistoryProofV2.mk [up 1 0 [9] false] [] [] [] [])
      (.Default .Complete)).2.2 (by decide)⟩

end AkdVerify
